import Mathlib

/-!
# Trainer Booking (`app.py`) — shallow embedding and verification

This file embeds the slot-conflict / booking-lifecycle engine of the
Streamlit app `app.py` into Lean 4 and proves properties of it.

Modelling conventions:
* Python `datetime` values (the app compares their `isoformat()` strings,
  which are injective renderings) are modelled by the `DateTime` structure;
  `timedelta` addition is implemented with the standard civil-calendar
  conversion (days-from-civil / civil-from-days), matching wall-clock,
  offset-naive arithmetic.
* The persisted JSON document `{bookings, blocked, settings}` is the
  `State` structure.  The Python `set` of blocked slot strings is modelled
  as a list used only through membership.
* Python `str.upper()` / `str.strip()` on the ASCII code strings the app
  uses are modelled by `pyUpper` / `pyStrip`.
* Each mutating handler re-reads the latest state, validates and persists;
  its validation-and-mutation core is embedded as a pure function
  `State → Except Err State` (errors persist nothing).  Random inputs
  (`uid` draws, fresh ids, `datetime.now()`) are explicit parameters.
-/

namespace TrainerBooking

/-! ## Calendar arithmetic (embedding of `datetime` + `timedelta`) -/

/-- Days since 1970-01-01 of a civil date (standard civil-calendar
conversion, as used by `datetime.date.toordinal` up to an offset). -/
def daysFromCivil (y m d : Int) : Int :=
  let yy := if m ≤ 2 then y - 1 else y
  let era := (if 0 ≤ yy then yy else yy - 399) / 400
  let yoe := yy - era * 400
  let mp := (m + 9) % 12
  let doy := (153 * mp + 2) / 5 + d - 1
  let doe := yoe * 365 + yoe / 4 - yoe / 100 + doy
  era * 146097 + doe - 719468

/-- Civil date `(year, month, day)` of a days-since-epoch count;
inverse of `daysFromCivil`. -/
def civilFromDays (z0 : Int) : Int × Int × Int :=
  let z := z0 + 719468
  let era := (if 0 ≤ z then z else z - 146096) / 146097
  let doe := z - era * 146097
  let yoe := (doe - doe / 1460 + doe / 36524 - doe / 146096) / 365
  let y := yoe + era * 400
  let doy := doe - (365 * yoe + yoe / 4 - yoe / 100)
  let mp := (5 * doy + 2) / 153
  let d := doy - (153 * mp + 2) / 5 + 1
  let m := if mp < 10 then mp + 3 else mp - 9
  (if m ≤ 2 then y + 1 else y, m, d)

/-- A local-naive timestamp, the value rendered by `datetime.isoformat()`
(`YYYY-MM-DDTHH:MM:SS`).  `isoformat` is injective, so string equality in
the app is equality of `DateTime` values. -/
structure DateTime where
  year : Int
  month : Int
  day : Int
  hour : Int
  minute : Int
  second : Int
deriving DecidableEq, Repr

/-- A calendar date (`datetime.date`). -/
structure Date where
  year : Int
  month : Int
  day : Int
deriving DecidableEq, Repr

/-- Minutes since epoch of a timestamp (seconds are carried separately,
unchanged by whole-minute arithmetic). -/
def totalMinutes (t : DateTime) : Int :=
  daysFromCivil t.year t.month t.day * 1440 + t.hour * 60 + t.minute

/-- Embedding of `add_minutes_iso`: parse the ISO timestamp, add a
`timedelta` of `m` minutes, render back to ISO. -/
def add_minutes_iso (t : DateTime) (m : Int) : DateTime :=
  let tot := totalMinutes t + m
  let dz := tot.fdiv 1440
  let rem := tot.fmod 1440
  let c := civilFromDays dz
  ⟨c.1, c.2.1, c.2.2, rem / 60, rem % 60, t.second⟩

/-- Embedding of `slot_iso`: the timestamp of day `d` at hour `hr`,
minutes and seconds zero. -/
def slot_iso (d : Date) (hr : Nat) : DateTime :=
  ⟨d.year, d.month, d.day, (hr : Int), 0, 0⟩

/-- The constant `SLOT_LENGTH_MIN`, 60 minutes. -/
def SLOT_LENGTH_MIN : Int := 60

/-! ## String helpers (embedding of `str.upper` / `str.strip` / slicing) -/

/-- ASCII uppercase of one character (the app's codes and names are
handled bytewise for the characters that matter here). -/
def asciiUpper (c : Char) : Char :=
  if 'a' ≤ c ∧ c ≤ 'z' then Char.ofNat (c.toNat - 32) else c

/-- Embedding of the Python string upper method (ASCII model). -/
def pyUpper (s : String) : String := ⟨s.data.map asciiUpper⟩

/-- Embedding of the Python string strip method: drop leading and
trailing whitespace. -/
def pyStrip (s : String) : String :=
  ⟨((s.data.dropWhile Char.isWhitespace).reverse.dropWhile
      Char.isWhitespace).reverse⟩

/-- Embedding of the Python slice taking the first `n` characters. -/
def pySlice (s : String) (n : Nat) : String := ⟨s.data.take n⟩

/-! ## `uid` and booking codes -/

/-- The alphabet of `uid`: `'ABCDEFGHJKLMNPQRSTUVWXYZ23456789'`. -/
def uidChars : List Char :=
  ['A','B','C','D','E','F','G','H','J','K','L','M','N','P','Q','R','S',
   'T','U','V','W','X','Y','Z','2','3','4','5','6','7','8','9']

/-- Embedding of `uid`: one character drawn from the alphabet per
position; the random draws are explicit indices into the alphabet. -/
def uid (draws : List (Fin uidChars.length)) : String :=
  ⟨draws.map uidChars.get⟩

/-- Embedding of the code format string: a three-draw `uid`, a dash,
another three-draw `uid`. -/
def mkCode (a b : List (Fin uidChars.length)) : String :=
  uid a ++ "-" ++ uid b

/-- One character of the regex class `[A-Z0-9]`. -/
def isUpperOrDigit (c : Char) : Bool :=
  ('A' ≤ c && c ≤ 'Z') || ('0' ≤ c && c ≤ '9')

/-- The regex `^[A-Z0-9]{3}-[A-Z0-9]{3}$` as a decidable predicate. -/
def codeMatches (s : String) : Bool :=
  match s.data with
  | [a, b, c, d, e, f, g] =>
      isUpperOrDigit a && isUpperOrDigit b && isUpperOrDigit c &&
      (d = '-') && isUpperOrDigit e && isUpperOrDigit f && isUpperOrDigit g
  | _ => false

/-! ## Data model -/

/-- A persisted booking record. -/
structure Booking where
  id : String
  name : String
  remark : String
  startISO : DateTime
  endISO : DateTime
  createdAtISO : DateTime
  code : String
deriving DecidableEq, Repr

/-- The settings record. -/
structure Settings where
  dayStartHour : Nat
  dayEndHour : Nat
  trainerPin : String
deriving DecidableEq, Repr

/-- The persisted scheduling state (`storage.json`). -/
structure State where
  bookings : List Booking
  blocked : List DateTime
  settings : Settings
deriving DecidableEq, Repr

/-- Embedding of the module-level `hours` list: the Python range from
the start hour to the end hour inclusive. -/
def hours (s : Settings) : List Nat :=
  List.range' s.dayStartHour (s.dayEndHour + 1 - s.dayStartHour)

/-- Embedding of `is_blocked`: membership in the blocked set. -/
def is_blocked (st : State) (s : DateTime) : Bool :=
  st.blocked.contains s

/-- Embedding of `is_booked`: some booking has this start timestamp. -/
def is_booked (st : State) (s : DateTime) : Bool :=
  st.bookings.any (fun b => b.startISO == s)

/-- Embedding of `day_availability_stats`: per hour, count booked, else
blocked; free is the total minus both counts, floored at zero; returns
the triple of free, taken plus blocked, and total. -/
def day_availability_stats (st : State) (d : Date) : Int × Nat × Nat :=
  let hs := hours st.settings
  let counts := hs.foldl
    (fun (acc : Nat × Nat) hr =>
      let s := slot_iso d hr
      if is_booked st s then (acc.1 + 1, acc.2)
      else if is_blocked st s then (acc.1, acc.2 + 1)
      else acc)
    (0, 0)
  let total := hs.length
  let free : Int := max 0 ((total : Int) - counts.1 - counts.2)
  (free, counts.1 + counts.2, total)

/-! ## The mutating operations -/

/-- The recoverable error kinds of the engine. -/
inductive Err where
  | SlotBlocked
  | SlotTaken
  | InvalidName
  | BookingNotFound
deriving DecidableEq, Repr

deriving instance DecidableEq for Except

/-- Embedding of the `confirm_booking_dialog` submit handler: re-reads the latest state,
checks blocked, then taken, then empty name; on success appends the new
booking and persists.  The generated `code`, the fresh `id` and
`datetime.now()` are explicit parameters. -/
def createBooking (st : State) (d : Date) (hour : Nat)
    (name remark : String) (freshId code : String) (now : DateTime) :
    Except Err State :=
  let start_iso := slot_iso d hour
  let end_iso := add_minutes_iso start_iso SLOT_LENGTH_MIN
  if is_blocked st start_iso then .error .SlotBlocked
  else if st.bookings.any (fun b => b.startISO == start_iso) then
    .error .SlotTaken
  else if pyStrip name = "" then .error .InvalidName
  else .ok { st with
    bookings := st.bookings ++
      [{ id := freshId, name := pyStrip name, remark := pyStrip remark,
         startISO := start_iso, endISO := end_iso, createdAtISO := now,
         code := code }] }

/-- Replace the first element satisfying `p` by its image under `f`
(the embedding of the find-first-matching-index, mutate-in-place loop). -/
def updateFirst (p : Booking → Bool) (f : Booking → Booking) :
    List Booking → List Booking
  | [] => []
  | b :: bs => if p b then f b :: bs else b :: updateFirst p f bs

/-- The manage-booking move handler: the entered code is
`.strip().upper()`-normalised; the handler finds the first booking whose
upper-cased code matches (`BookingNotFound` if none), rejects if *any*
booking occupies the target (`SlotTaken`), rejects a blocked target
(`SlotBlocked`), else rewrites `startISO`/`endISO` of that booking. -/
def moveBooking (st : State) (rawCode : String) (d : Date) (hour : Nat) :
    Except Err State :=
  let code := pyUpper (pyStrip rawCode)
  let s := slot_iso d hour
  if st.bookings.all (fun b => !(pyUpper b.code == code)) then
    .error .BookingNotFound
  else if st.bookings.any (fun b => b.startISO == s) then
    .error .SlotTaken
  else if is_blocked st s then .error .SlotBlocked
  else .ok { st with
    bookings := updateFirst (fun b => pyUpper b.code == code)
      (fun b => { b with startISO := s,
                         endISO := add_minutes_iso s SLOT_LENGTH_MIN })
      st.bookings }

/-- The manage-booking cancel handler: keep the bookings whose upper-cased
code differs from the normalised entered code; `BookingNotFound` when the
list length is unchanged, else persist the filtered list. -/
def cancelBooking (st : State) (rawCode : String) : Except Err State :=
  let code := pyUpper (pyStrip rawCode)
  let keep := st.bookings.filter (fun b => !(pyUpper b.code == code))
  if keep.length = st.bookings.length then .error .BookingNotFound
  else .ok { st with bookings := keep }

/-- Embedding of the trainer block or unblock button: flip membership of
the slot in the blocked set (no validation against bookings), persist. -/
def toggleBlock (st : State) (s : DateTime) : State :=
  if st.blocked.contains s then
    { st with blocked := st.blocked.filter (fun x => !(x == s)) }
  else
    { st with blocked := st.blocked ++ [s] }

/-- Embedding of the trainer save-settings button: store the two hours (the UI's
`number_input` bounds them to `0..23`) and the PIN truncated by
`new_pin[:8]`; bookings and blocked entries untouched. -/
def updateSettings (st : State) (newStart newEnd : Nat) (newPin : String) :
    State :=
  { st with settings :=
      { dayStartHour := newStart, dayEndHour := newEnd,
        trainerPin := pySlice newPin 8 } }

/-! ## Operation sequences -/

/-- One user-triggered mutating intent. -/
inductive Op where
  | create (d : Date) (hour : Nat) (name remark freshId code : String)
      (now : DateTime)
  | move (rawCode : String) (d : Date) (hour : Nat)
  | cancel (rawCode : String)
  | toggle (s : DateTime)
  | setSettings (newStart newEnd : Nat) (newPin : String)

/-- Run one operation; a failed operation persists nothing, so the state
is unchanged. -/
def runOp (st : State) : Op → State
  | .create d hour name remark freshId code now =>
      match createBooking st d hour name remark freshId code now with
      | .ok st' => st'
      | .error _ => st
  | .move rawCode d hour =>
      match moveBooking st rawCode d hour with
      | .ok st' => st'
      | .error _ => st
  | .cancel rawCode =>
      match cancelBooking st rawCode with
      | .ok st' => st'
      | .error _ => st
  | .toggle s => toggleBlock st s
  | .setSettings a b pin => updateSettings st a b pin

/-- Run a sequence of operations. -/
def runOps (st : State) (ops : List Op) : State :=
  ops.foldl runOp st

/-- The no-double-booking invariant: active bookings have pairwise
distinct `startISO` values. -/
def distinctStarts (st : State) : Prop :=
  st.bookings.Pairwise (fun a b => a.startISO ≠ b.startISO)

/-- Normalised-code distinctness among active bookings. -/
def distinctCodes (st : State) : Prop :=
  st.bookings.Pairwise (fun a b => pyUpper a.code ≠ pyUpper b.code)

instance (st : State) : Decidable (distinctStarts st) := by
  unfold distinctStarts; infer_instance

instance (st : State) : Decidable (distinctCodes st) := by
  unfold distinctCodes; infer_instance

/-! ## Characterisations of the operations -/

theorem createBooking_ok_iff {st st' : State} {d : Date} {hour : Nat}
    {name remark freshId code : String} {now : DateTime}
    (h : createBooking st d hour name remark freshId code now = .ok st') :
    st'.bookings = st.bookings ++
      [{ id := freshId, name := pyStrip name, remark := pyStrip remark,
         startISO := slot_iso d hour,
         endISO := add_minutes_iso (slot_iso d hour) SLOT_LENGTH_MIN,
         createdAtISO := now, code := code }] ∧
    st'.blocked = st.blocked ∧ st'.settings = st.settings ∧
    (∀ b ∈ st.bookings, b.startISO ≠ slot_iso d hour) ∧
    is_blocked st (slot_iso d hour) = false ∧ pyStrip name ≠ "" := by
  unfold createBooking at h
  simp only [] at h
  split at h
  · exact absurd h (by simp)
  · split at h
    · exact absurd h (by simp)
    · split at h
      · exact absurd h (by simp)
      · rename_i hbl htk hnm
        injection h with h
        subst h
        refine ⟨rfl, rfl, rfl, ?_, ?_, hnm⟩
        · intro b hb heq
          exact htk (by simpa using ⟨b, hb, heq⟩)
        · simpa using hbl

theorem moveBooking_ok_iff {st st' : State} {rawCode : String} {d : Date}
    {hour : Nat}
    (h : moveBooking st rawCode d hour = .ok st') :
    st'.bookings =
      updateFirst (fun b => pyUpper b.code == pyUpper (pyStrip rawCode))
        (fun b => { b with startISO := slot_iso d hour,
                           endISO := add_minutes_iso (slot_iso d hour)
                             SLOT_LENGTH_MIN }) st.bookings ∧
    st'.blocked = st.blocked ∧ st'.settings = st.settings ∧
    (∀ b ∈ st.bookings, b.startISO ≠ slot_iso d hour) ∧
    (∃ b ∈ st.bookings, pyUpper b.code = pyUpper (pyStrip rawCode)) ∧
    is_blocked st (slot_iso d hour) = false := by
  unfold moveBooking at h
  simp only [] at h
  split at h
  · exact absurd h (by simp)
  · split at h
    · exact absurd h (by simp)
    · split at h
      · exact absurd h (by simp)
      · rename_i hfound htk hbl
        injection h with h
        subst h
        refine ⟨rfl, rfl, rfl, ?_, ?_, ?_⟩
        · intro b hb heq
          exact htk (by simpa using ⟨b, hb, heq⟩)
        · simpa using hfound
        · simpa using hbl

theorem cancelBooking_ok_iff {st st' : State} {rawCode : String}
    (h : cancelBooking st rawCode = .ok st') :
    st'.bookings = st.bookings.filter
      (fun b => !(pyUpper b.code == pyUpper (pyStrip rawCode))) ∧
    st'.blocked = st.blocked ∧ st'.settings = st.settings := by
  unfold cancelBooking at h
  simp only [] at h
  split at h
  · exact absurd h (by simp)
  · injection h with h
    subst h
    exact ⟨rfl, rfl, rfl⟩

/-! ## `updateFirst` lemmas -/

theorem mem_updateFirst {p : Booking → Bool} {f : Booking → Booking} :
    ∀ {l : List Booking} {x : Booking}, x ∈ updateFirst p f l →
      x ∈ l ∨ ∃ y ∈ l, x = f y := by
  intro l
  induction l with
  | nil => intro x hx; simp [updateFirst] at hx
  | cons b bs ih =>
      intro x hx
      by_cases hpb : p b
      · simp only [updateFirst, if_pos hpb, List.mem_cons] at hx
        rcases hx with h | h
        · exact Or.inr ⟨b, List.mem_cons_self _ _, h⟩
        · exact Or.inl (List.mem_cons_of_mem _ h)
      · simp only [updateFirst, if_neg hpb, List.mem_cons] at hx
        rcases hx with h | h
        · exact Or.inl (h ▸ List.mem_cons_self _ _)
        · rcases ih h with h' | ⟨y, hy, hxy⟩
          · exact Or.inl (List.mem_cons_of_mem _ h')
          · exact Or.inr ⟨y, List.mem_cons_of_mem _ hy, hxy⟩

theorem updateFirst_decomp {p : Booking → Bool} {f : Booking → Booking} :
    ∀ {l : List Booking}, (∃ b ∈ l, p b) →
      ∃ l₁ b l₂, l = l₁ ++ b :: l₂ ∧ p b ∧
        updateFirst p f l = l₁ ++ f b :: l₂ := by
  intro l
  induction l with
  | nil => intro h; simp at h
  | cons c cs ih =>
      intro h
      by_cases hpc : p c
      · exact ⟨[], c, cs, rfl, hpc, by simp [updateFirst, hpc]⟩
      · obtain ⟨b, hb, hpb⟩ := h
        rcases List.mem_cons.mp hb with rfl | hbcs
        · exact absurd hpb hpc
        · obtain ⟨l₁, b', l₂, hdec, hpb', hupd⟩ := ih ⟨b, hbcs, hpb⟩
          exact ⟨c :: l₁, b', l₂, by simp [hdec], hpb',
            by simp [updateFirst, hpc, hupd]⟩

theorem pairwise_updateFirst {l : List Booking} {s e : DateTime}
    {p : Booking → Bool}
    (hl : l.Pairwise (fun a b => a.startISO ≠ b.startISO))
    (hs : ∀ b ∈ l, b.startISO ≠ s) :
    (updateFirst p (fun b => { b with startISO := s, endISO := e })
        l).Pairwise (fun a b => a.startISO ≠ b.startISO) := by
  induction l with
  | nil => simp [updateFirst]
  | cons b bs ih =>
      rw [List.pairwise_cons] at hl
      by_cases hpb : p b
      · rw [updateFirst, if_pos hpb, List.pairwise_cons]
        refine ⟨?_, hl.2⟩
        intro x hx
        exact fun hc =>
          hs x (List.mem_cons_of_mem _ hx) (by simpa using hc.symm)
      · rw [updateFirst, if_neg hpb, List.pairwise_cons]
        refine ⟨?_, ih hl.2 (fun x hx => hs x (List.mem_cons_of_mem _ hx))⟩
        intro x hx
        rcases mem_updateFirst hx with hxbs | ⟨y, _, rfl⟩
        · exact hl.1 x hxbs
        · exact fun hc => hs b (List.mem_cons_self _ _) (by simpa using hc)

/-! ## Availability counting -/

theorem availCounts_le (st : State) (d : Date) :
    ∀ (hs : List Nat) (a b : Nat),
      (hs.foldl
        (fun (acc : Nat × Nat) hr =>
          let s := slot_iso d hr
          if is_booked st s then (acc.1 + 1, acc.2)
          else if is_blocked st s then (acc.1, acc.2 + 1)
          else acc)
        (a, b)).1 +
      (hs.foldl
        (fun (acc : Nat × Nat) hr =>
          let s := slot_iso d hr
          if is_booked st s then (acc.1 + 1, acc.2)
          else if is_blocked st s then (acc.1, acc.2 + 1)
          else acc)
        (a, b)).2 ≤ a + b + hs.length := by
  intro hs
  induction hs with
  | nil => intro a b; simp
  | cons hr tl ih =>
      intro a b
      simp only [List.foldl_cons, List.length_cons]
      by_cases h1 : is_booked st (slot_iso d hr)
      · simpa [h1] using le_trans (ih (a + 1) b) (by omega)
      · by_cases h2 : is_blocked st (slot_iso d hr)
        · simpa [h1, h2] using le_trans (ih a (b + 1)) (by omega)
        · simpa [h1, h2] using le_trans (ih a b) (by omega)

/-! ## Filter length lemma -/

theorem filter_length_eq_iff {α : Type} {p : α → Bool} {l : List α} :
    (l.filter p).length = l.length ↔ ∀ a ∈ l, p a := by
  constructor
  · intro h
    have heq : l.filter p = l := (List.filter_sublist l).eq_of_length h
    exact List.filter_eq_self.mp heq
  · intro h
    rw [List.filter_eq_self.mpr h]

/-! ## SlotTaken laws shared by several claims -/

theorem createBooking_taken (st : State) (d : Date) (hr : Nat)
    (name remark freshId code : String) (now : DateTime)
    (hbl : is_blocked st (slot_iso d hr) = false)
    (hbk : is_booked st (slot_iso d hr) = true) :
    createBooking st d hr name remark freshId code now
      = .error .SlotTaken := by
  unfold is_booked at hbk
  unfold createBooking
  simp [hbl, hbk]

theorem moveBooking_taken (st : State) (rawCode : String) (d : Date)
    (hr : Nat)
    (hfound : ∃ b ∈ st.bookings, pyUpper b.code = pyUpper (pyStrip rawCode))
    (hbk : is_booked st (slot_iso d hr) = true) :
    moveBooking st rawCode d hr = .error .SlotTaken := by
  obtain ⟨b, hb, hcode⟩ := hfound
  unfold is_booked at hbk
  unfold moveBooking
  simp only []
  have hall : (st.bookings.all
      fun bb => !(pyUpper bb.code == pyUpper (pyStrip rawCode))) = false := by
    rw [List.all_eq_false]
    exact ⟨b, hb, by simp [hcode]⟩
  rw [hall]
  simp [hbk]

/-! ## Preservation of the no-double-booking invariant -/

theorem runOp_preserves_distinctStarts (st : State) (op : Op)
    (h : distinctStarts st) : distinctStarts (runOp st op) := by
  cases op with
  | create d hour name remark freshId code now =>
      simp only [runOp]
      split
      · rename_i st' hc
        obtain ⟨hb, _, _, hne, _, _⟩ := createBooking_ok_iff hc
        unfold distinctStarts
        rw [hb, List.pairwise_append]
        refine ⟨h, List.pairwise_singleton _ _, ?_⟩
        intro x hx y hy
        simp only [List.mem_singleton] at hy
        subst hy
        simpa using hne x hx
      · exact h
  | move rawCode d hour =>
      simp only [runOp]
      split
      · rename_i st' hc
        obtain ⟨hb, _, _, hne, _, _⟩ := moveBooking_ok_iff hc
        unfold distinctStarts
        rw [hb]
        exact pairwise_updateFirst h hne
      · exact h
  | cancel rawCode =>
      simp only [runOp]
      split
      · rename_i st' hc
        obtain ⟨hb, _, _⟩ := cancelBooking_ok_iff hc
        unfold distinctStarts
        rw [hb]
        exact h.sublist (List.filter_sublist _)
      · exact h
  | toggle s =>
      show distinctStarts (toggleBlock st s)
      unfold distinctStarts toggleBlock
      split
      · exact h
      · exact h
  | setSettings a b pin => exact h

theorem runOps_preserves_distinctStarts (ops : List Op) :
    ∀ st : State, distinctStarts st → distinctStarts (runOps st ops) := by
  induction ops with
  | nil => intro st h; exact h
  | cons op tl ih =>
      intro st h
      exact ih (runOp st op) (runOp_preserves_distinctStarts st op h)

/-! ## Concrete fixtures used by witnesses and counterexamples -/

/-- The default storage document. -/
def initialState : State := ⟨[], [], ⟨6, 21, "1234"⟩⟩

/-- A sample booking at 2025-06-10T09:00. -/
def bAlex : Booking :=
  ⟨"bk_1", "Alex Tan", "", ⟨2025, 6, 10, 9, 0, 0⟩, ⟨2025, 6, 10, 10, 0, 0⟩,
   ⟨2025, 6, 1, 12, 0, 0⟩, "ABC-234"⟩

/-- A second sample booking at 2025-06-10T11:00. -/
def bBea : Booking :=
  ⟨"bk_2", "Bea Lim", "knee", ⟨2025, 6, 10, 11, 0, 0⟩, ⟨2025, 6, 10, 12, 0, 0⟩,
   ⟨2025, 6, 2, 12, 0, 0⟩, "XYZ-789"⟩

/-- A state holding the two sample bookings. -/
def stTwo : State := ⟨[bAlex, bBea], [], ⟨6, 21, "1234"⟩⟩

/-- The state `stTwo` after `bAlex` has been moved to 2025-06-10T13:00. -/
def moveBookedTwo : State :=
  ⟨[⟨"bk_1", "Alex Tan", "", ⟨2025, 6, 10, 13, 0, 0⟩,
     ⟨2025, 6, 10, 14, 0, 0⟩, ⟨2025, 6, 1, 12, 0, 0⟩, "ABC-234"⟩, bBea],
   [], ⟨6, 21, "1234"⟩⟩

/-! ## C4 — create on a blocked slot -/

/-- C4: whenever the target slot identifier is in the blocked set,
`createBooking` fails with `SlotBlocked` — irrespective of any booking on
the slot and of the supplied name — and the state is unchanged. -/
theorem create_blocked_always_SlotBlocked (st : State) (d : Date) (hr : Nat)
    (name remark freshId code : String) (now : DateTime)
    (hb : is_blocked st (slot_iso d hr) = true) :
    createBooking st d hr name remark freshId code now = .error .SlotBlocked ∧
    runOp st (.create d hr name remark freshId code now) = st := by
  have h1 : createBooking st d hr name remark freshId code now
      = .error .SlotBlocked := by
    unfold createBooking
    simp [hb]
  exact ⟨h1, by simp [runOp, h1]⟩

/-- C4 witness: a blocked, *booked* slot and an empty name still yield
`SlotBlocked` with the state unchanged. -/
theorem create_blocked_always_SlotBlocked_witness :
    createBooking
        ⟨[bAlex], [⟨2025, 6, 10, 9, 0, 0⟩], ⟨6, 21, "1234"⟩⟩
        ⟨2025, 6, 10⟩ 9 "" "" "bk_9" "QQQ-222" ⟨2025, 6, 3, 0, 0, 0⟩
      = .error .SlotBlocked ∧
    runOp ⟨[bAlex], [⟨2025, 6, 10, 9, 0, 0⟩], ⟨6, 21, "1234"⟩⟩
        (.create ⟨2025, 6, 10⟩ 9 "" "" "bk_9" "QQQ-222" ⟨2025, 6, 3, 0, 0, 0⟩)
      = ⟨[bAlex], [⟨2025, 6, 10, 9, 0, 0⟩], ⟨6, 21, "1234"⟩⟩ :=
  create_blocked_always_SlotBlocked
    ⟨[bAlex], [⟨2025, 6, 10, 9, 0, 0⟩], ⟨6, 21, "1234"⟩⟩
    ⟨2025, 6, 10⟩ 9 "" "" "bk_9" "QQQ-222" ⟨2025, 6, 3, 0, 0, 0⟩ (by decide)

/-! ## C7 — day enumeration and unordered hour settings -/

/-- C7: `hours` enumerates exactly the hours from `dayStartHour` to
`dayEndHour` inclusive, in strictly ascending order; when the start hour
exceeds the end hour the enumeration is empty, and `updateSettings`
accepts such a pair unchanged (no ordering validation). -/
theorem hours_enumerates_inclusive_ascending (s : Settings) :
    (∀ h : Nat, h ∈ hours s ↔ s.dayStartHour ≤ h ∧ h ≤ s.dayEndHour) ∧
    (hours s).Pairwise (· < ·) ∧
    (s.dayEndHour < s.dayStartHour → hours s = []) ∧
    (∀ (st : State) (pin : String),
      (updateSettings st 10 8 pin).settings.dayStartHour = 10 ∧
      (updateSettings st 10 8 pin).settings.dayEndHour = 8 ∧
      hours (updateSettings st 10 8 pin).settings = []) := by
  refine ⟨?_, ?_, ?_, ?_⟩
  · intro h
    unfold hours
    rw [List.mem_range'_1]
    omega
  · exact List.pairwise_lt_range' _ _
  · intro hlt
    unfold hours
    have h0 : s.dayEndHour + 1 - s.dayStartHour = 0 := by omega
    rw [h0]
    rfl
  · intro st pin
    exact ⟨rfl, rfl, rfl⟩

/-- C7 witness: with hours 6–21, hour 9 is enumerable and 22 is not; the
accepted `(start, end) = (10, 8)` settings produce an empty day. -/
theorem hours_enumerates_inclusive_ascending_witness :
    (9 ∈ hours ⟨6, 21, "1234"⟩ ↔ 6 ≤ 9 ∧ 9 ≤ 21) ∧
    ((22 ∈ hours ⟨6, 21, "1234"⟩) ↔ 6 ≤ 22 ∧ 22 ≤ 21) ∧
    hours (updateSettings initialState 10 8 "1234").settings = [] :=
  ⟨(hours_enumerates_inclusive_ascending ⟨6, 21, "1234"⟩).1 9,
   (hours_enumerates_inclusive_ascending ⟨6, 21, "1234"⟩).1 22,
   ((hours_enumerates_inclusive_ascending
      (updateSettings initialState 10 8 "1234").settings).2.2.2
      initialState ("1234")).2.2⟩

/-! ## C9 — settings update frame -/

/-- C9: `updateSettings` with in-range hours stores the PIN truncated to
at most 8 characters, stores the two hours, and leaves both the bookings
list and the blocked set exactly unchanged. -/
theorem updateSettings_frame (st : State) (a b : Nat) (pin : String)
    (ha : a ≤ 23) (hb : b ≤ 23) :
    (updateSettings st a b pin).bookings = st.bookings ∧
    (updateSettings st a b pin).blocked = st.blocked ∧
    (updateSettings st a b pin).settings.dayStartHour = a ∧
    (updateSettings st a b pin).settings.dayEndHour = b ∧
    (updateSettings st a b pin).settings.trainerPin = pySlice pin 8 ∧
    (updateSettings st a b pin).settings.trainerPin.length ≤ 8 := by
  refine ⟨rfl, rfl, rfl, rfl, rfl, ?_⟩
  show (pySlice pin 8).length ≤ 8
  unfold pySlice
  show (pin.data.take 8).length ≤ 8
  rw [List.length_take]
  exact min_le_left _ _

/-- C9 witness: a long PIN is truncated to 8 characters while a booking
at 05:00 and a blocked entry outside the new 9–17 range survive. -/
theorem updateSettings_frame_witness :
    (updateSettings
        ⟨[bAlex], [⟨2025, 6, 12, 5, 0, 0⟩], ⟨6, 21, "1234"⟩⟩
        9 17 "supersecretpin").bookings = [bAlex] ∧
    (updateSettings
        ⟨[bAlex], [⟨2025, 6, 12, 5, 0, 0⟩], ⟨6, 21, "1234"⟩⟩
        9 17 "supersecretpin").blocked = [⟨2025, 6, 12, 5, 0, 0⟩] ∧
    (updateSettings
        ⟨[bAlex], [⟨2025, 6, 12, 5, 0, 0⟩], ⟨6, 21, "1234"⟩⟩
        9 17 "supersecretpin").settings.trainerPin = "supersec" := by
  have h := updateSettings_frame
    ⟨[bAlex], [⟨2025, 6, 12, 5, 0, 0⟩], ⟨6, 21, "1234"⟩⟩
    9 17 "supersecretpin" (by decide) (by decide)
  exact ⟨h.1, h.2.1, by rw [h.2.2.2.2.1]; decide⟩

/-! ## C10 — day availability stats -/

/-- C10: the day availability triple `(free, occupied, total)` satisfies
`free + occupied = total` and `free ≥ 0`: each enumerated slot is counted
at most once (booked wins over blocked), so the `max 0` clamp never
changes the value. -/
theorem day_availability_stats_partition (st : State) (d : Date) :
    (day_availability_stats st d).1 + ((day_availability_stats st d).2.1 : Int)
        = ((day_availability_stats st d).2.2 : Int) ∧
    0 ≤ (day_availability_stats st d).1 ∧
    (day_availability_stats st d).1
        = ((day_availability_stats st d).2.2 : Int)
          - ((day_availability_stats st d).2.1 : Int) := by
  have h := availCounts_le st d (hours st.settings) 0 0
  simp only [] at h
  unfold day_availability_stats
  simp only []
  constructor
  · push_cast
    omega
  · constructor
    · push_cast
      omega
    · push_cast
      omega

/-- C10 witness: on 2025-06-10 with one booked slot (09:00) that is also
blocked, and a second distinct blocked slot (12:00), the stats give
`free = 13`, `occupied = 2`, `total = 15` — the doubly-marked slot is
counted once. -/
theorem day_availability_stats_partition_witness :
    0 ≤ (day_availability_stats
      ⟨[bAlex], [⟨2025, 6, 10, 9, 0, 0⟩, ⟨2025, 6, 10, 12, 0, 0⟩],
       ⟨7, 21, "1234"⟩⟩ ⟨2025, 6, 10⟩).1 ∧
    day_availability_stats
      ⟨[bAlex], [⟨2025, 6, 10, 9, 0, 0⟩, ⟨2025, 6, 10, 12, 0, 0⟩],
       ⟨7, 21, "1234"⟩⟩ ⟨2025, 6, 10⟩ = (13, 2, 15) :=
  ⟨(day_availability_stats_partition
      ⟨[bAlex], [⟨2025, 6, 10, 9, 0, 0⟩, ⟨2025, 6, 10, 12, 0, 0⟩],
       ⟨7, 21, "1234"⟩⟩ ⟨2025, 6, 10⟩).2.1,
   by decide⟩

/-! ## C1 — no double booking -/

/-- C1: from any state whose active bookings have pairwise-distinct
`startISO` values, every sequence of mutating operations (failed ones
persist nothing) preserves that distinctness; `createBooking` on an
occupied, unblocked slot fails with `SlotTaken`, and `moveBooking` of an
existing code to an occupied slot fails with `SlotTaken`. -/
theorem no_double_booking_invariant :
    (∀ (st : State) (ops : List Op),
        distinctStarts st → distinctStarts (runOps st ops)) ∧
    (∀ (st : State) (d : Date) (hr : Nat)
        (name remark freshId code : String) (now : DateTime),
        is_blocked st (slot_iso d hr) = false →
        is_booked st (slot_iso d hr) = true →
        createBooking st d hr name remark freshId code now
          = .error .SlotTaken) ∧
    (∀ (st : State) (rawCode : String) (d : Date) (hr : Nat),
        (∃ b ∈ st.bookings, pyUpper b.code = pyUpper (pyStrip rawCode)) →
        is_booked st (slot_iso d hr) = true →
        moveBooking st rawCode d hr = .error .SlotTaken) :=
  ⟨fun st ops => runOps_preserves_distinctStarts ops st,
   fun st d hr name remark freshId code now hbl hbk =>
     createBooking_taken st d hr name remark freshId code now hbl hbk,
   fun st rawCode d hr hfound hbk =>
     moveBooking_taken st rawCode d hr hfound hbk⟩

/-- C1 witness: a create, a move, a cancel, a block toggle and a settings
update run from a distinct-start state keep the starts distinct, and both
`SlotTaken` rejections fire on the sample state. -/
theorem no_double_booking_invariant_witness :
    distinctStarts (runOps stTwo
      [.create ⟨2025, 6, 10⟩ 13 "Cara" "" "bk_3" "DEF-567"
          ⟨2025, 6, 3, 9, 0, 0⟩,
       .move ("abc-234") ⟨2025, 6, 10⟩ 14,
       .cancel ("xyz-789"),
       .toggle ⟨2025, 6, 10, 15, 0, 0⟩,
       .setSettings 7 20 "9999"]) ∧
    createBooking stTwo ⟨2025, 6, 10⟩ 9 "Dan" "" "bk_4" "GHJ-222"
        ⟨2025, 6, 3, 9, 0, 0⟩ = .error .SlotTaken ∧
    moveBooking stTwo ("xyz-789") ⟨2025, 6, 10⟩ 9 = .error .SlotTaken :=
  ⟨no_double_booking_invariant.1 stTwo _ (by decide),
   no_double_booking_invariant.2.1 stTwo ⟨2025, 6, 10⟩ 9 "Dan" "" "bk_4"
     "GHJ-222" ⟨2025, 6, 3, 9, 0, 0⟩ (by decide) (by decide),
   no_double_booking_invariant.2.2 stTwo ("xyz-789") ⟨2025, 6, 10⟩ 9
     (by decide) (by decide)⟩

/-! ## C3 — moving a booking onto its own current slot -/

/-- C3 counterexample: `bAlex` (code `ABC-234`) occupies
2025-06-10T09:00, the slot is not blocked, yet moving it onto its own
slot is rejected with `SlotTaken` — the claim says such a move succeeds
as a no-op. -/
theorem move_own_slot_counterexample :
    is_blocked stTwo (slot_iso ⟨2025, 6, 10⟩ 9) = false ∧
    moveBooking stTwo ("ABC-234") ⟨2025, 6, 10⟩ 9 = .error .SlotTaken := by
  exact ⟨by decide, by decide⟩

/-- C3 amended: the move handler's occupancy check ranges over *all*
active bookings, including the one being moved, so moving a booking onto
its own current slot fails with `SlotTaken`. -/
theorem move_own_slot_SlotTaken (st : State) (rawCode : String) (d : Date)
    (hr : Nat)
    (h : ∃ b ∈ st.bookings, pyUpper b.code = pyUpper (pyStrip rawCode) ∧
        b.startISO = slot_iso d hr) :
    moveBooking st rawCode d hr = .error .SlotTaken := by
  obtain ⟨b, hb, hcode, hstart⟩ := h
  refine moveBooking_taken st rawCode d hr ⟨b, hb, hcode⟩ ?_
  unfold is_booked
  rw [List.any_eq_true]
  exact ⟨b, hb, by simp [hstart]⟩

/-- C3 witness: the second sample booking, moved onto its own
2025-06-10T11:00 slot, is rejected with `SlotTaken`. -/
theorem move_own_slot_SlotTaken_witness :
    moveBooking stTwo ("xyz-789") ⟨2025, 6, 10⟩ 11 = .error .SlotTaken :=
  move_own_slot_SlotTaken stTwo ("xyz-789") ⟨2025, 6, 10⟩ 11 (by decide)

/-! ## C5 — a successful move only rewrites the slot of one booking -/

/-- C5: a successful `moveBooking` leaves the blocked set and settings
unchanged and rewrites exactly one booking, whose `id`, `code`, `name`,
`remark` and `createdAtISO` are preserved, whose new `startISO` is the
target slot (necessarily different from the old one) and whose new
`endISO` is the target start plus the slot length. -/
theorem moveBooking_frame (st st' : State) (rawCode : String) (d : Date)
    (hr : Nat) (h : moveBooking st rawCode d hr = .ok st') :
    st'.blocked = st.blocked ∧ st'.settings = st.settings ∧
    ∃ l₁ b b' l₂, st.bookings = l₁ ++ b :: l₂ ∧
      st'.bookings = l₁ ++ b' :: l₂ ∧
      b'.id = b.id ∧ b'.code = b.code ∧ b'.name = b.name ∧
      b'.remark = b.remark ∧ b'.createdAtISO = b.createdAtISO ∧
      b'.startISO = slot_iso d hr ∧
      b'.endISO = add_minutes_iso (slot_iso d hr) SLOT_LENGTH_MIN ∧
      b'.startISO ≠ b.startISO := by
  obtain ⟨hbk, hbl, hset, hne, hfound, _⟩ := moveBooking_ok_iff h
  refine ⟨hbl, hset, ?_⟩
  obtain ⟨bm, hbm, hcode⟩ := hfound
  obtain ⟨l₁, b, l₂, hdecomp, hpb, hupd⟩ :=
    updateFirst_decomp
      (p := fun bb => pyUpper bb.code == pyUpper (pyStrip rawCode))
      (f := fun bb =>
        { bb with
          startISO := slot_iso d hr,
          endISO := add_minutes_iso (slot_iso d hr) SLOT_LENGTH_MIN })
      ⟨bm, hbm, by simp [hcode]⟩
  have hbmem : b ∈ st.bookings := by
    rw [hdecomp]
    simp
  refine ⟨l₁, b,
    { b with
      startISO := slot_iso d hr,
      endISO := add_minutes_iso (slot_iso d hr) SLOT_LENGTH_MIN },
    l₂, hdecomp, by rw [hbk, hupd], rfl, rfl, rfl, rfl,
    rfl, rfl, rfl, ?_⟩
  exact fun hc => hne b hbmem (by simpa using hc.symm)

/-- C5 witness: moving `bAlex` to 13:00 keeps its identity fields and
the rest of the state. -/
theorem moveBooking_frame_witness :
    (moveBookedTwo).blocked = stTwo.blocked ∧
    (moveBookedTwo).settings = stTwo.settings ∧
    ∃ l₁ b b' l₂, stTwo.bookings = l₁ ++ b :: l₂ ∧
      (moveBookedTwo).bookings = l₁ ++ b' :: l₂ ∧
      b'.id = b.id ∧ b'.code = b.code ∧ b'.name = b.name ∧
      b'.remark = b.remark ∧ b'.createdAtISO = b.createdAtISO ∧
      b'.startISO = slot_iso ⟨2025, 6, 10⟩ 13 ∧
      b'.endISO = add_minutes_iso (slot_iso ⟨2025, 6, 10⟩ 13)
        SLOT_LENGTH_MIN ∧
      b'.startISO ≠ b.startISO :=
  moveBooking_frame stTwo moveBookedTwo ("abc-234") ⟨2025, 6, 10⟩ 13
    (by decide)

/-! ## C6 — cancel semantics -/

/-- C6: cancelling succeeds exactly when some active booking's code
matches case-insensitively, in which case precisely the matching bookings
are removed; otherwise (in particular on a second cancel of the same
code) it fails with `BookingNotFound` and the state is unchanged. -/
theorem cancelBooking_spec (st : State) (rawCode : String) :
    ((∃ b ∈ st.bookings, pyUpper b.code = pyUpper (pyStrip rawCode)) →
      cancelBooking st rawCode = .ok
        { st with
          bookings := st.bookings.filter
            (fun b => !(pyUpper b.code == pyUpper (pyStrip rawCode))) }) ∧
    ((∀ b ∈ st.bookings, pyUpper b.code ≠ pyUpper (pyStrip rawCode)) →
      cancelBooking st rawCode = .error .BookingNotFound ∧
      runOp st (.cancel rawCode) = st) := by
  constructor
  · rintro ⟨b, hb, hcode⟩
    unfold cancelBooking
    simp only []
    rw [if_neg ?hne]
    case hne =>
      intro hlen
      have hall := filter_length_eq_iff.mp hlen b hb
      simp [hcode] at hall
  · intro hall
    have heq : cancelBooking st rawCode = .error .BookingNotFound := by
      unfold cancelBooking
      simp only []
      rw [if_pos]
      exact filter_length_eq_iff.mpr (fun x hx => by simpa using hall x hx)
    exact ⟨heq, by simp [runOp, heq]⟩

/-- C6 witness: cancelling `abc-234` removes exactly `bAlex`; cancelling
it again on the resulting state fails with `BookingNotFound` and leaves
the state unchanged. -/
theorem cancelBooking_spec_witness :
    cancelBooking stTwo ("abc-234") = .ok ⟨[bBea], [], ⟨6, 21, "1234"⟩⟩ ∧
    cancelBooking ⟨[bBea], [], ⟨6, 21, "1234"⟩⟩ ("abc-234")
      = .error .BookingNotFound ∧
    runOp ⟨[bBea], [], ⟨6, 21, "1234"⟩⟩ (.cancel ("abc-234"))
      = ⟨[bBea], [], ⟨6, 21, "1234"⟩⟩ := by
  have h1 := (cancelBooking_spec stTwo ("abc-234")).1 (by decide)
  have h2 := (cancelBooking_spec
    ⟨[bBea], [], ⟨6, 21, "1234"⟩⟩ ("abc-234")).2 (by decide)
  exact ⟨by rw [h1]; decide, h2.1, h2.2⟩

/-! ## C2 — codes are assigned without any uniqueness check -/

/-- Index 0 of the `uid` alphabet (the letter `A`). -/
def drawA : Fin uidChars.length := ⟨0, by decide⟩

/-- The code produced when every `uid` draw hits index 0: `AAA-AAA`. -/
def codeAA : String := mkCode [drawA, drawA, drawA] [drawA, drawA, drawA]

/-- C2 counterexample: from the default empty storage, two successful
creates whose independent `uid` draws happen to collide leave two active
bookings with the same normalised code — the generator is never checked
against existing codes, so code distinctness is not an invariant. -/
theorem code_collision_counterexample :
    ¬ distinctCodes
        (runOps initialState
          [.create ⟨2025, 6, 10⟩ 9 "Alex Tan" "" "bk_1" codeAA
              ⟨2025, 6, 1, 12, 0, 0⟩,
           .create ⟨2025, 6, 10⟩ 10 "Bea Lim" "" "bk_2" codeAA
              ⟨2025, 6, 1, 12, 5, 0⟩]) := by
  decide

/-- C2 amended: `createBooking` accepts whatever code the generator
produced — there is no uniqueness check against active codes and no
retry on collision; it succeeds whenever the slot is unblocked and free
and the name is nonempty, appending the booking with that code as-is. -/
theorem createBooking_no_code_uniqueness_check (st : State) (d : Date)
    (hr : Nat) (name remark freshId code : String) (now : DateTime)
    (h1 : is_blocked st (slot_iso d hr) = false)
    (h2 : is_booked st (slot_iso d hr) = false)
    (h3 : pyStrip name ≠ "") :
    createBooking st d hr name remark freshId code now = .ok
      { st with
        bookings := st.bookings ++
          [{ id := freshId, name := pyStrip name, remark := pyStrip remark,
             startISO := slot_iso d hr,
             endISO := add_minutes_iso (slot_iso d hr) SLOT_LENGTH_MIN,
             createdAtISO := now, code := code }] } := by
  unfold is_booked at h2
  unfold createBooking
  simp [h1, h2, h3]

/-- C2 witness: with `bAlex` (code `ABC-234`) active, a create supplying
the very same code succeeds, duplicating the normalised code. -/
theorem createBooking_no_code_uniqueness_check_witness :
    createBooking stTwo ⟨2025, 6, 10⟩ 14 "Cara" "" "bk_3" "ABC-234"
        ⟨2025, 6, 3, 9, 0, 0⟩ = .ok
      { stTwo with
        bookings := stTwo.bookings ++
          [{ id := "bk_3", name := pyStrip ("Cara"), remark := pyStrip (""),
             startISO := slot_iso ⟨2025, 6, 10⟩ 14,
             endISO := add_minutes_iso (slot_iso ⟨2025, 6, 10⟩ 14)
               SLOT_LENGTH_MIN,
             createdAtISO := ⟨2025, 6, 3, 9, 0, 0⟩,
             code := "ABC-234" }] } :=
  createBooking_no_code_uniqueness_check stTwo ⟨2025, 6, 10⟩ 14 "Cara" ""
    "bk_3" "ABC-234" ⟨2025, 6, 3, 9, 0, 0⟩ (by decide) (by decide)
    (by decide)

/-! ## C8 — code shape and derived end time -/

theorem uidChars_upperOrDigit :
    ∀ i : Fin uidChars.length, isUpperOrDigit (uidChars.get i) = true := by
  decide

/-- C8: any booking created with a code built from two 3-character `uid`
draws matches `^[A-Z0-9]{3}-[A-Z0-9]{3}$`, and its `endISO` is derived as
its `startISO` plus `SLOT_LENGTH_MIN` minutes. -/
theorem createBooking_code_shape (st st' : State) (d : Date) (hr : Nat)
    (name remark freshId : String) (now : DateTime)
    (a b : List (Fin uidChars.length)) (ha : a.length = 3)
    (hb : b.length = 3)
    (h : createBooking st d hr name remark freshId (mkCode a b) now
      = .ok st') :
    ∃ bk, st'.bookings = st.bookings ++ [bk] ∧ bk.code = mkCode a b ∧
      codeMatches bk.code = true ∧ bk.startISO = slot_iso d hr ∧
      bk.endISO = add_minutes_iso bk.startISO SLOT_LENGTH_MIN := by
  obtain ⟨hbkgs, _, _, _, _, _⟩ := createBooking_ok_iff h
  refine ⟨_, hbkgs, rfl, ?_, rfl, rfl⟩
  show codeMatches (mkCode a b) = true
  obtain ⟨a1, a2, a3, rfl⟩ := List.length_eq_three.mp ha
  obtain ⟨b1, b2, b3, rfl⟩ := List.length_eq_three.mp hb
  unfold mkCode uid codeMatches
  simp [String.data_append]
  exact ⟨⟨⟨⟨⟨uidChars_upperOrDigit a1, uidChars_upperOrDigit a2⟩,
    uidChars_upperOrDigit a3⟩, uidChars_upperOrDigit b1⟩,
    uidChars_upperOrDigit b2⟩, uidChars_upperOrDigit b3⟩

/-- Draws `A`, `B`, `C` for the first `uid(3)` of the sample code. -/
def dA : List (Fin uidChars.length) :=
  [⟨0, by decide⟩, ⟨1, by decide⟩, ⟨2, by decide⟩]

/-- Draws `2`, `3`, `4` for the second `uid(3)` of the sample code. -/
def dB : List (Fin uidChars.length) :=
  [⟨24, by decide⟩, ⟨25, by decide⟩, ⟨26, by decide⟩]

/-- The state after booking 2025-06-10T09:00 for Alex Tan from the
default empty storage with draws `dA` and `dB`. -/
def st8 : State :=
  ⟨[⟨"bk_1", "Alex Tan", "", ⟨2025, 6, 10, 9, 0, 0⟩,
     ⟨2025, 6, 10, 10, 0, 0⟩, ⟨2025, 6, 10, 8, 55, 0⟩, "ABC-234"⟩],
   [], ⟨6, 21, "1234"⟩⟩

/-- C8 witness: booking the 2025-06-10T09:00 slot yields `endISO`
2025-06-10T10:00 and a code of the required shape. -/
theorem createBooking_code_shape_witness :
    add_minutes_iso ⟨2025, 6, 10, 9, 0, 0⟩ SLOT_LENGTH_MIN
      = ⟨2025, 6, 10, 10, 0, 0⟩ ∧
    (∃ bk, st8.bookings = initialState.bookings ++ [bk] ∧
      bk.code = mkCode dA dB ∧ codeMatches bk.code = true ∧
      bk.startISO = slot_iso ⟨2025, 6, 10⟩ 9 ∧
      bk.endISO = add_minutes_iso bk.startISO SLOT_LENGTH_MIN) :=
  ⟨by decide,
   createBooking_code_shape initialState st8 ⟨2025, 6, 10⟩ 9 "Alex Tan" ""
     "bk_1" ⟨2025, 6, 10, 8, 55, 0⟩ dA dB rfl rfl (by decide)⟩

end TrainerBooking
